import Mathlib

/-!
# Verification of `qsforex` strategy signal computation

Shallow embedding of `src/strategy/strategy.py`:
`PSARWithMACDStrategy` (the Trend-Reversal Indicator Engine) and
`MovingAverageCrossStrategy` (the Rolling Average Crossover Detector).

Modelling conventions:
* Python `Decimal` prices are modelled by exact rationals `ℚ`.  All the
  arithmetic appearing in the strategies (`+`, `-`, `*`, division, `min`,
  `max`, comparisons) agrees with `Decimal` arithmetic whenever the decimal
  context does not round, which is the case for every concrete computation
  considered here.
* A `Decimal` that may be NaN (the four high/low tick fields) is modelled by
  `DecMaybe`: a rational value together with a NaN flag, mirroring the
  `is_nan()` test in the code.
* Python code paths that would raise (reading `None` fields, an unbound
  local `sar`) are modelled by returning `none` from the step function;
  `some` results model normal termination of `calculate_signals`.
* Mutation of the per-pair attribute dictionary is modelled by explicit
  state passing of a `PsarPairState` / `MAPairState` record.
-/

namespace QSForex

/-- A price field that may carry a NaN marker (Python `Decimal.is_nan()`). -/
structure DecMaybe where
  isNan : Bool
  val : ℚ
deriving DecidableEq, Repr

/-- A plain (non-NaN) price value. -/
def DecMaybe.ofVal (q : ℚ) : DecMaybe := ⟨false, q⟩

/-- `TickEvent` as consumed by `calculate_signals`: event type tag,
instrument, timestamp and the six price fields.  Only the four
high/low fields may be NaN (spec §6). -/
structure TickEvent where
  type : String
  instrument : String
  time : ℕ
  bid : ℚ
  ask : ℚ
  bid_high : DecMaybe
  bid_low : DecMaybe
  ask_high : DecMaybe
  ask_low : DecMaybe
deriving DecidableEq, Repr

/-- `SignalEvent(instrument, order_type, side, time)` as produced by the
strategies and pushed onto the events queue. -/
structure SignalEvent where
  instrument : String
  order_kind : String
  side : String
  time : ℕ
deriving DecidableEq, Repr

/-! ## Trend-Reversal Indicator Engine (`PSARWithMACDStrategy`) -/

/-- Constructor arguments of `PSARWithMACDStrategy`:
pairs list, `step`, `af` (initial acceleration factor) and `af_max`. -/
structure PsarConfig where
  pairs : List String
  step : ℚ
  af : ℚ
  af_max : ℚ
deriving DecidableEq, Repr

/-- The per-pair attribute dictionary of `PSARWithMACDStrategy`
(`create_pairs_dict`).  Python initialises `last_event` and `prior_sar`
to `None`, modelled with `Option`. -/
structure PsarPairState where
  af : ℚ
  direction : ℤ
  ep : ℚ
  invested : Bool
  long : Bool
  short : Bool
  ticks : ℕ
  highs : List ℚ
  last_event : Option TickEvent
  lows : List ℚ
  prior_sar : Option ℚ
deriving DecidableEq, Repr

/-- The fresh per-pair dictionary built by `create_pairs_dict`:
`af` starts at the configured initial acceleration factor. -/
def initPsarPairState (cfg : PsarConfig) : PsarPairState :=
  { af := cfg.af
    direction := 0
    ep := 0
    invested := false
    long := false
    short := false
    ticks := 0
    highs := []
    last_event := none
    lows := []
    prior_sar := none }

/-- `self.pairs[0]`, the primary instrument.  Python would raise on an
empty pairs list; configurations are constructed with nonempty lists. -/
def primaryPair (cfg : PsarConfig) : String := cfg.pairs.headD ""

/-- The NaN guard of `calculate_signals`:
`event.ask_high.is_nan() or event.ask_low.is_nan() or
 event.bid_high.is_nan() or event.bid_low.is_nan()`. -/
def nanBad (e : TickEvent) : Bool :=
  e.ask_high.isNan || e.ask_low.isNan || e.bid_high.isNan || e.bid_low.isNan

/-- Python `max` over a list: raises (`none`) on the empty list. -/
def pyMax : List ℚ → Option ℚ
  | [] => none
  | x :: l => some (l.foldl max x)

/-- Python `min` over a list: raises (`none`) on the empty list. -/
def pyMin : List ℚ → Option ℚ
  | [] => none
  | x :: l => some (l.foldl min x)

/-- The `ticks == 1` seeding block of `calculate_signals` (lines 93–108):
sets `prior_sar` to the mean of the four high/low fields, classifies the
initial trend by comparing that seed with the current bid-low/bid-high,
seeds the histories from the stored previous event and sets `af`/`ep`.
Returns `none` when `last_event` is `None` (unreachable in real runs:
Python would raise an `AttributeError`). -/
def seedState (cfg : PsarConfig) (s : PsarPairState) (e : TickEvent) :
    Option PsarPairState :=
  match s.last_event with
  | none => none
  | some le =>
    let seed := (e.ask_high.val + e.ask_low.val + e.bid_high.val + e.bid_low.val) / 4
    if seed - e.bid_low.val > e.bid_high.val - seed then
      let highs := s.highs ++ [le.ask_high.val]
      let lows := s.lows ++ [le.ask_low.val]
      match pyMax highs with
      | none => none
      | some m =>
        some { s with prior_sar := some seed, direction := 1,
                      highs := highs, lows := lows, af := cfg.af, ep := m }
    else
      let highs := s.highs ++ [le.bid_high.val]
      let lows := s.lows ++ [le.bid_low.val]
      match pyMin lows with
      | none => none
      | some m =>
        some { s with prior_sar := some seed, direction := -1,
                      highs := highs, lows := lows, af := -cfg.af, ep := m }

/-- The steady-state trend computation of `calculate_signals`
(lines 110–138): appends the current highs/lows, computes the new `sar`,
updates `af`/`ep` on a new extreme, and performs the reversal check.
Returns the updated state together with the locally bound `sar`.
`none` models a Python exception: unbound `sar` when `direction == 0`
(neither branch runs), `prior_sar` being `None`, or `min`/`max` on an
empty history. -/
def trendStep (cfg : PsarConfig) (s : PsarPairState) (e : TickEvent) :
    Option (PsarPairState × ℚ) :=
  if s.direction > 0 then
    match s.prior_sar with
    | none => none
    | some prior =>
      let highs := s.highs ++ [e.ask_high.val]
      let lows := s.lows ++ [e.ask_low.val]
      let sar := prior + s.af * (s.ep - prior)
      let high := e.ask_high.val
      let s1 := { s with highs := highs, lows := lows }
      let s2 := if high > s1.ep
                then { s1 with af := min (s1.af + cfg.step) cfg.af_max, ep := high }
                else s1
      match pyMin lows with
      | none => none
      | some m =>
        if m < sar then
          some ({ s2 with direction := -2, af := -cfg.af }, s2.ep)
        else
          some (s2, sar)
  else if s.direction < 0 then
    match s.prior_sar with
    | none => none
    | some prior =>
      let highs := s.highs ++ [e.bid_high.val]
      let lows := s.lows ++ [e.bid_low.val]
      let sar := prior + s.af * (prior - s.ep)
      let low := e.bid_low.val
      let s1 := { s with highs := highs, lows := lows }
      let s2 := if low < s1.ep
                then { s1 with af := max (s1.af - cfg.step) (-cfg.af_max), ep := low }
                else s1
      match pyMax highs with
      | none => none
      | some m =>
        if m > sar then
          -- NB: the source does not modify `direction` here.
          some ({ s2 with af := cfg.af }, s2.ep)
        else
          some (s2, sar)
  else
    none

/-- Normalisation of the transient reversal marker:
`if pd["direction"] == -2: pd["direction"] = -1`. -/
def normalizeDir (s : PsarPairState) : PsarPairState :=
  if s.direction = -2 then { s with direction := -1 } else s

/-- Signal evaluation of `calculate_signals` (lines 143–157): the buy
check against `event.ask`, then the sell check against `event.bid`,
the second reading the flags already updated by the first. -/
def signalStep (cfg : PsarConfig) (s : PsarPairState) (sar : ℚ) (e : TickEvent) :
    PsarPairState × List SignalEvent :=
  let rb :=
    if sar < e.ask ∧ s.long = false then
      ({ s with long := true, short := false },
       [⟨primaryPair cfg, "market", "buy", e.time⟩])
    else (s, [])
  let rs :=
    if sar > e.bid ∧ rb.1.short = false then
      ({ rb.1 with short := true, long := false },
       [⟨primaryPair cfg, "market", "sell", e.time⟩])
    else (rb.1, [])
  (rs.1, rb.2 ++ rs.2)

/-- One call of `PSARWithMACDStrategy.calculate_signals` on the primary
pair's state: instrument/type guard, NaN guard, first-tick bookkeeping,
seeding on the second tick, trend computation, direction normalisation,
signal evaluation and the final `prior_sar`/`last_event`/`ticks` update.
`none` models a Python exception. -/
def psarStep (cfg : PsarConfig) (s : PsarPairState) (e : TickEvent) :
    Option (PsarPairState × List SignalEvent) :=
  if e.type = "TICK" ∧ e.instrument = primaryPair cfg then
    if nanBad e then some (s, [])
    else if s.ticks = 0 then
      some ({ s with last_event := some e, ticks := s.ticks + 1 }, [])
    else
      match (if s.ticks = 1 then seedState cfg s e else some s) with
      | none => none
      | some s1 =>
        match trendStep cfg s1 e with
        | none => none
        | some (s2, sar) =>
          let s3 := normalizeDir s2
          let r := signalStep cfg s3 sar e
          some ({ r.1 with prior_sar := some sar, last_event := some e,
                           ticks := r.1.ticks + 1 }, r.2)
  else some (s, [])

/-- One fold step of a run: thread the state and append the emitted
signals; a `none` (Python exception) is absorbing. -/
def psarFoldStep (cfg : PsarConfig)
    (acc : Option (PsarPairState × List SignalEvent)) (e : TickEvent) :
    Option (PsarPairState × List SignalEvent) :=
  match acc with
  | none => none
  | some (s, sigs) =>
    match psarStep cfg s e with
    | none => none
    | some (s', out) => some (s', sigs ++ out)

/-- Processing a whole sequence of tick events from the fresh state,
accumulating all emitted signals.  A `none` anywhere aborts the run
(models an uncaught Python exception). -/
def psarRun (cfg : PsarConfig) (events : List TickEvent) :
    Option (PsarPairState × List SignalEvent) :=
  events.foldl (psarFoldStep cfg) (some (initPsarPairState cfg, []))

/-- States reachable by the engine: fresh (`ticks = 0`); after exactly
one processed tick (`ticks = 1`, previous event stored); or in steady
state (`ticks ≥ 2`, direction `±1`, prior indicator stored, nonempty
histories).  This is the inductive invariant of `psarStep`. -/
def PsarReach (s : PsarPairState) : Prop :=
  s.ticks = 0 ∨
  (s.ticks = 1 ∧ s.last_event.isSome) ∨
  (2 ≤ s.ticks ∧ (s.direction = 1 ∨ s.direction = -1) ∧
   s.prior_sar.isSome ∧ s.highs ≠ [] ∧ s.lows ≠ [])

/-- The pairs-dictionary level of `calculate_signals`: the per-instrument
state map is only consulted (and its `event.instrument` entry replaced)
when the event passes the type/primary-instrument guard; otherwise the
whole map is untouched and nothing is emitted. -/
def psarDictStep (cfg : PsarConfig) (d : String → PsarPairState) (e : TickEvent) :
    Option ((String → PsarPairState) × List SignalEvent) :=
  if e.type = "TICK" ∧ e.instrument = primaryPair cfg then
    match psarStep cfg (d e.instrument) e with
    | none => none
    | some (s', sigs) =>
      some ((fun p => if p = e.instrument then s' else d p), sigs)
  else some (d, [])

/-! ## Rolling Average Crossover Detector (`MovingAverageCrossStrategy`) -/

/-- Constructor arguments of `MovingAverageCrossStrategy`. -/
structure MAConfig where
  pairs : List String
  short_window : ℤ
  long_window : ℤ
deriving DecidableEq, Repr

/-- The per-pair attribute dictionary of `MovingAverageCrossStrategy`.
Python initialises `short_sma`/`long_sma` to `None`; both are written on
the first tick (the `ticks == 0` branch) before they are ever read, so
the initial value `0` here is never observed in a run. -/
structure MAPairState where
  ticks : ℕ
  invested : Bool
  short_sma : ℚ
  long_sma : ℚ
deriving DecidableEq, Repr

/-- Fresh per-pair state of `create_pairs_dict` for the crossover detector. -/
def initMAPairState : MAPairState :=
  { ticks := 0, invested := false, short_sma := 0, long_sma := 0 }

/-- `calc_rolling_sma(sma_m_1, window, price)`:
`((sma_m_1 * (window - 1)) + price) / window`. -/
def calc_rolling_sma (sma_m_1 : ℚ) (window : ℤ) (price : ℚ) : ℚ :=
  ((sma_m_1 * ((window : ℚ) - 1)) + price) / (window : ℚ)

/-- Lines 209–218 of `calculate_signals`: initialise both rolling
averages to the price on the first tick, otherwise apply
`calc_rolling_sma` with the respective windows. -/
def maUpdateSmas (cfg : MAConfig) (s : MAPairState) (price : ℚ) : MAPairState :=
  if s.ticks = 0 then
    { s with short_sma := price, long_sma := price }
  else
    { s with short_sma := calc_rolling_sma s.short_sma cfg.short_window price,
             long_sma := calc_rolling_sma s.long_sma cfg.long_window price }

/-- The crossover checks of `calculate_signals` (lines 220–228), guarded
by the warm-up condition `ticks > short_window`; the sell check reads the
`invested` flag already updated by the buy check. -/
def maSignalCheck (cfg : MAConfig) (s1 : MAPairState) (e : TickEvent) :
    MAPairState × List SignalEvent :=
  if (s1.ticks : ℤ) > cfg.short_window then
    let rb :=
      if s1.short_sma > s1.long_sma ∧ s1.invested = false then
        ({ s1 with invested := true }, [⟨e.instrument, "market", "buy", e.time⟩])
      else (s1, [])
    let rs :=
      if rb.1.short_sma < rb.1.long_sma ∧ rb.1.invested = true then
        ({ rb.1 with invested := false }, [⟨e.instrument, "market", "sell", e.time⟩])
      else (rb.1, [])
    (rs.1, rb.2 ++ rs.2)
  else (s1, [])

/-- One call of `MovingAverageCrossStrategy.calculate_signals` on one
pair's state (any tracked instrument is processed; the state passed in is
the entry of `pairs_dict` for `event.instrument`): initialise or update
the two rolling averages with the tick's bid price, evaluate signals only
once `ticks > short_window`, then increment `ticks`. -/
def maStep (cfg : MAConfig) (s : MAPairState) (e : TickEvent) :
    MAPairState × List SignalEvent :=
  if e.type = "TICK" then
    let s1 := maUpdateSmas cfg s e.bid
    let r := maSignalCheck cfg s1 e
    ({ r.1 with ticks := r.1.ticks + 1 }, r.2)
  else (s, [])

/-- Processing a sequence of tick events for one instrument from the fresh
state, accumulating all emitted signals. -/
def maRun (cfg : MAConfig) (events : List TickEvent) :
    MAPairState × List SignalEvent :=
  events.foldl
    (fun acc e =>
      let r := maStep cfg acc.1 e
      (r.1, acc.2 ++ r.2))
    (initMAPairState, [])

/-! ## Concrete fixtures

Concrete configurations, ticks and expected states used by the
evaluation theorems and witnesses below.  `mkTick` builds a well-formed
(NaN-free) tick; `flatTick` a degenerate tick whose six price fields
are all equal. -/

/-- A well-formed tick with the given prices (no NaN fields). -/
def mkTick (inst : String) (t : ℕ) (bid ask bh bl ah al : ℚ) : TickEvent :=
  ⟨"TICK", inst, t, bid, ask, DecMaybe.ofVal bh, DecMaybe.ofVal bl,
   DecMaybe.ofVal ah, DecMaybe.ofVal al⟩

/-- A tick whose bid, ask and all four high/low fields equal `x`. -/
def flatTick (inst : String) (t : ℕ) (x : ℚ) : TickEvent :=
  mkTick inst t x x x x x x

/-- C9 fixture: `short_window = 2` (long window at its default 2000). -/
def c9cfg : MAConfig := ⟨["EURUSD"], 2, 2000⟩

/-- C9 fixture: the literal price sequence `[1, 1, 1, 2, 2, 2]` as bid
prices of six ticks on one instrument. -/
def c9events : List TickEvent :=
  [flatTick "EURUSD" 0 1, flatTick "EURUSD" 1 1, flatTick "EURUSD" 2 1,
   flatTick "EURUSD" 3 2, flatTick "EURUSD" 4 2, flatTick "EURUSD" 5 2]

/-- C9 fixture: the single expected buy signal (emitted on the fourth
tick, whose timestamp is 3). -/
def c9buy : SignalEvent := ⟨"EURUSD", "market", "buy", 3⟩

/-- C1 fixture: the default-like configuration
`step = 1/50`, `af = 1/5`, `af_max = 1/5`. -/
def c1cfg : PsarConfig := ⟨["EURUSD"], 1/50, 1/5, 1/5⟩

/-- C1 fixture: first tick, all prices 10. -/
def c1t1 : TickEvent := flatTick "EURUSD" 0 10

/-- C1 fixture: second tick, all prices 10 (classified as downtrend,
since the seed 10 is not strictly closer to the bid-high). -/
def c1t2 : TickEvent := flatTick "EURUSD" 1 10

/-- C1 fixture: third tick with `bid_high = ask_high = 11`, which makes
the maximum of the high history (11) exceed the indicator computed on
this tick (10) and so triggers the downtrend reversal branch. -/
def c1t3 : TickEvent := mkTick "EURUSD" 2 10 10 11 10 11 10

/-- C1 fixture: the engine state after `[c1t1, c1t2]` — in a downtrend
with `af = -1/5`, extreme 10, prior indicator 10. -/
def c1s2 : PsarPairState :=
  ⟨-(1/5), -1, 10, false, false, false, 2, [10, 10], some c1t2, [10, 10], some 10⟩

/-- C1 fixture: the engine state after `[c1t1, c1t2, c1t3]` — the
reversal reset `af` to `+1/5` but left `direction = -1`. -/
def c1s3 : PsarPairState :=
  ⟨1/5, -1, 10, false, false, false, 3, [10, 10, 11], some c1t3, [10, 10, 10], some 10⟩

/-- C3 fixture: a configuration with `af_max (0) ≥ af (-1)` but a
negative initial acceleration factor. -/
def c3cfg : PsarConfig := ⟨["EURUSD"], 0, -1, 0⟩

/-- C3 fixture: a single well-formed tick. -/
def c3tick : TickEvent := flatTick "EURUSD" 0 10

/-- C3 fixture: the state after processing `c3tick` from scratch: only
`last_event` and `ticks` changed, `af` still the initial `-1`. -/
def c3s1 : PsarPairState :=
  ⟨-1, 0, 0, false, false, false, 1, [], some c3tick, [], none⟩

/-- C6 witness fixture: configuration. -/
def c6cfg : PsarConfig := ⟨["GBPUSD"], 1/50, 1/5, 1/5⟩

/-- C6 witness fixture: the first tick. -/
def c6e0 : TickEvent := flatTick "GBPUSD" 0 10

/-- C6 witness fixture: the second tick. -/
def c6e1 : TickEvent := flatTick "GBPUSD" 1 10

/-- C6 witness fixture: the state after processing `c6e0`. -/
def c6s1 : PsarPairState :=
  ⟨1/5, 0, 0, false, false, false, 1, [], some c6e0, [], none⟩

/-- C10 witness fixture: configuration. -/
def c10cfg : PsarConfig := ⟨["USDJPY"], 1/50, 1/5, 1/5⟩

/-- C10 witness fixture: the first tick. -/
def c10e0 : TickEvent := flatTick "USDJPY" 0 10

/-- C10 witness fixture: the second tick. -/
def c10e1 : TickEvent := flatTick "USDJPY" 1 10

/-- C10 witness fixture: the state after processing `c10e0`. -/
def c10s1 : PsarPairState :=
  ⟨1/5, 0, 0, false, false, false, 1, [], some c10e0, [], none⟩

/-! ## Engine phase lemmas -/

theorem pyMax_append_isSome (l : List ℚ) (x : ℚ) : (pyMax (l ++ [x])).isSome := by
  cases l <;> simp [pyMax]

theorem pyMin_append_isSome (l : List ℚ) (x : ℚ) : (pyMin (l ++ [x])).isSome := by
  cases l <;> simp [pyMin]

/-- What the seeding block guarantees about its output state: direction
`±1`, acceleration factor `±af`, a defined prior indicator, nonempty
histories, and untouched tick count and position flags. -/
theorem seedState_spec (cfg : PsarConfig) (s : PsarPairState) (e : TickEvent)
    (t : PsarPairState) (h : seedState cfg s e = some t) :
    (t.direction = 1 ∨ t.direction = -1) ∧
    (t.af = cfg.af ∨ t.af = -cfg.af) ∧
    t.prior_sar.isSome ∧ t.highs ≠ [] ∧ t.lows ≠ [] ∧
    t.ticks = s.ticks ∧ t.long = s.long ∧ t.short = s.short := by
  unfold seedState at h
  split at h
  · exact Option.noConfusion h
  · dsimp only at h
    split_ifs at h <;> split at h
    · exact Option.noConfusion h
    · injection h with h'
      subst h'
      exact ⟨by simp, by simp, by simp, by simp, by simp, rfl, rfl, rfl⟩
    · exact Option.noConfusion h
    · injection h with h'
      subst h'
      exact ⟨by simp, by simp, by simp, by simp, by simp, rfl, rfl, rfl⟩

/-- The seeding block succeeds whenever a previous event is stored. -/
theorem seedState_isSome (cfg : PsarConfig) (s : PsarPairState) (e : TickEvent)
    (hle : s.last_event.isSome) : (seedState cfg s e).isSome := by
  obtain ⟨le, hle⟩ := Option.isSome_iff_exists.mp hle
  unfold seedState
  rw [hle]
  dsimp only
  split_ifs
  · obtain ⟨m, hm⟩ :=
      Option.isSome_iff_exists.mp (pyMax_append_isSome s.highs le.ask_high.val)
    rw [hm]
    rfl
  · obtain ⟨m, hm⟩ :=
      Option.isSome_iff_exists.mp (pyMin_append_isSome s.lows le.bid_low.val)
    rw [hm]
    rfl

/-- What the steady-state trend computation guarantees about its output
state: direction preserved or set to the transient `-2`, acceleration
factor one of the five values the branches can produce, nonempty
histories, and untouched tick count, prior indicator and flags. -/
theorem trendStep_spec (cfg : PsarConfig) (s : PsarPairState) (e : TickEvent)
    (t : PsarPairState) (sar : ℚ) (h : trendStep cfg s e = some (t, sar)) :
    (t.direction = s.direction ∨ t.direction = -2) ∧
    (t.af = s.af ∨ t.af = min (s.af + cfg.step) cfg.af_max ∨
     t.af = max (s.af - cfg.step) (-cfg.af_max) ∨ t.af = cfg.af ∨ t.af = -cfg.af) ∧
    t.highs ≠ [] ∧ t.lows ≠ [] ∧ t.ticks = s.ticks ∧
    t.prior_sar = s.prior_sar ∧ t.long = s.long ∧ t.short = s.short := by
  unfold trendStep at h
  split_ifs at h with hup hdown
  · split at h
    · exact Option.noConfusion h
    · dsimp only at h
      split at h
      · exact Option.noConfusion h
      · split_ifs at h <;>
          (injection h with h'
           injection h' with h1 h2
           subst h1
           exact ⟨by simp, by simp, by simp, by simp, by simp, by simp, by simp, by simp⟩)
  · split at h
    · exact Option.noConfusion h
    · dsimp only at h
      split at h
      · exact Option.noConfusion h
      · split_ifs at h <;>
          (injection h with h'
           injection h' with h1 h2
           subst h1
           exact ⟨by simp, by simp, by simp, by simp, by simp, by simp, by simp, by simp⟩)

/-- The steady-state computation succeeds whenever the direction is `±1`
and a prior indicator value is stored: exactly one branch runs, the
histories fed to `min`/`max` are nonempty, and `sar` gets bound. -/
theorem trendStep_isSome (cfg : PsarConfig) (s : PsarPairState) (e : TickEvent)
    (hdir : s.direction = 1 ∨ s.direction = -1) (hps : s.prior_sar.isSome) :
    (trendStep cfg s e).isSome := by
  obtain ⟨prior, hprior⟩ := Option.isSome_iff_exists.mp hps
  unfold trendStep
  rcases hdir with hdir | hdir <;> rw [hdir]
  · rw [if_pos (by norm_num)]
    rw [hprior]
    dsimp only
    obtain ⟨m, hm⟩ :=
      Option.isSome_iff_exists.mp (pyMin_append_isSome s.lows e.ask_low.val)
    rw [hm]
    dsimp only
    split_ifs <;> rfl
  · rw [if_neg (by norm_num), if_pos (by norm_num)]
    rw [hprior]
    dsimp only
    obtain ⟨m, hm⟩ :=
      Option.isSome_iff_exists.mp (pyMax_append_isSome s.highs e.bid_high.val)
    rw [hm]
    dsimp only
    split_ifs <;> rfl

/-- Direction normalisation touches no field but `direction`. -/
theorem normalizeDir_fields (s : PsarPairState) :
    (normalizeDir s).af = s.af ∧ (normalizeDir s).ticks = s.ticks ∧
    (normalizeDir s).highs = s.highs ∧ (normalizeDir s).lows = s.lows ∧
    (normalizeDir s).prior_sar = s.prior_sar ∧
    (normalizeDir s).long = s.long ∧ (normalizeDir s).short = s.short := by
  unfold normalizeDir
  split_ifs <;> exact ⟨rfl, rfl, rfl, rfl, rfl, rfl, rfl⟩

/-- Normalisation maps the three in-flight direction values back to a
stable trend value. -/
theorem normalizeDir_direction (s : PsarPairState)
    (h : s.direction = 1 ∨ s.direction = -1 ∨ s.direction = -2) :
    (normalizeDir s).direction = 1 ∨ (normalizeDir s).direction = -1 := by
  unfold normalizeDir
  split_ifs with hc
  · exact Or.inr rfl
  · rcases h with h | h | h
    · exact Or.inl h
    · exact Or.inr h
    · exact absurd h hc

/-- Signal evaluation touches no field but the two position flags. -/
theorem signalStep_rest (cfg : PsarConfig) (s : PsarPairState) (sar : ℚ)
    (e : TickEvent) :
    (signalStep cfg s sar e).1.direction = s.direction ∧
    (signalStep cfg s sar e).1.af = s.af ∧
    (signalStep cfg s sar e).1.ticks = s.ticks ∧
    (signalStep cfg s sar e).1.highs = s.highs ∧
    (signalStep cfg s sar e).1.lows = s.lows ∧
    (signalStep cfg s sar e).1.prior_sar = s.prior_sar := by
  unfold signalStep
  dsimp only
  split_ifs <;> exact ⟨rfl, rfl, rfl, rfl, rfl, rfl⟩

/-- Signal evaluation preserves mutual exclusivity of the position
flags: each firing branch establishes it outright, and if neither fires
it is inherited. -/
theorem signalStep_excl (cfg : PsarConfig) (s : PsarPairState) (sar : ℚ)
    (e : TickEvent) (h : s.long = false ∨ s.short = false) :
    (signalStep cfg s sar e).1.long = false ∨
    (signalStep cfg s sar e).1.short = false := by
  unfold signalStep
  dsimp only
  split_ifs <;> simp_all

/-- Case decomposition of one engine step: an ignored/discarded tick
leaves the state unchanged; the very first tick only records
`last_event` and advances `ticks`; every later tick runs the
seed/trend/normalise/signal pipeline followed by the final field
updates. -/
theorem psarStep_inv (cfg : PsarConfig) (s : PsarPairState) (e : TickEvent)
    (s' : PsarPairState) (out : List SignalEvent)
    (h : psarStep cfg s e = some (s', out)) :
    s' = s ∨
    (s.ticks = 0 ∧ s' = { s with last_event := some e, ticks := s.ticks + 1 }) ∨
    (s.ticks ≠ 0 ∧ ∃ s1 s2 sar,
      (if s.ticks = 1 then seedState cfg s e else some s) = some s1 ∧
      trendStep cfg s1 e = some (s2, sar) ∧
      s' = { (signalStep cfg (normalizeDir s2) sar e).1 with
             prior_sar := some sar, last_event := some e,
             ticks := (signalStep cfg (normalizeDir s2) sar e).1.ticks + 1 }) := by
  unfold psarStep at h
  by_cases hguard : e.type = "TICK" ∧ e.instrument = primaryPair cfg
  · rw [if_pos hguard] at h
    by_cases hnan : nanBad e
    · rw [if_pos hnan] at h
      injection h with h'
      exact Or.inl (congrArg Prod.fst h').symm
    · rw [if_neg hnan] at h
      by_cases ht0 : s.ticks = 0
      · rw [if_pos ht0] at h
        injection h with h'
        exact Or.inr (Or.inl ⟨ht0, (congrArg Prod.fst h').symm⟩)
      · rw [if_neg ht0] at h
        rcases hseed : (if s.ticks = 1 then seedState cfg s e else some s) with _ | s1
        · rw [hseed] at h
          exact Option.noConfusion h
        · rw [hseed] at h
          dsimp only at h
          rcases htr : trendStep cfg s1 e with _ | ⟨s2, sar⟩
          · rw [htr] at h
            exact Option.noConfusion h
          · rw [htr] at h
            dsimp only at h
            injection h with h'
            exact Or.inr (Or.inr ⟨ht0, s1, s2, sar, rfl, htr,
              (congrArg Prod.fst h').symm⟩)
  · rw [if_neg hguard] at h
    injection h with h'
    exact Or.inl (congrArg Prod.fst h').symm

/-- The seed-or-skip phase preserves the position flags. -/
theorem seedPhase_flags (cfg : PsarConfig) (s : PsarPairState) (e : TickEvent)
    (s1 : PsarPairState)
    (hseed : (if s.ticks = 1 then seedState cfg s e else some s) = some s1) :
    s1.long = s.long ∧ s1.short = s.short := by
  split_ifs at hseed with ht
  · obtain ⟨_, _, _, _, _, _, hlong, hshort⟩ := seedState_spec cfg s e s1 hseed
    exact ⟨hlong, hshort⟩
  · injection hseed with h'
    subst h'
    exact ⟨rfl, rfl⟩

/-- One engine step preserves mutual exclusivity of the position flags. -/
theorem psarStep_flags (cfg : PsarConfig) (s : PsarPairState) (e : TickEvent)
    (s' : PsarPairState) (out : List SignalEvent)
    (h : psarStep cfg s e = some (s', out))
    (hx : s.long = false ∨ s.short = false) :
    s'.long = false ∨ s'.short = false := by
  rcases psarStep_inv cfg s e s' out h with rfl | ⟨_, rfl⟩ | ⟨_, s1, s2, sar, hseed, htr, rfl⟩
  · exact hx
  · exact hx
  · obtain ⟨h1long, h1short⟩ := seedPhase_flags cfg s e s1 hseed
    obtain ⟨_, _, _, _, _, _, h2long, h2short⟩ := trendStep_spec cfg s1 e s2 sar htr
    obtain ⟨_, _, _, _, _, h3long, h3short⟩ := normalizeDir_fields s2
    have hx3 : (normalizeDir s2).long = false ∨ (normalizeDir s2).short = false := by
      rw [h3long, h3short, h2long, h2short, h1long, h1short]
      exact hx
    simpa using signalStep_excl cfg (normalizeDir s2) sar e hx3

/-- One engine step keeps the acceleration factor within
`[-af_max, af_max]` provided `0 ≤ step` and `0 ≤ af ≤ af_max`. -/
theorem psarStep_af (cfg : PsarConfig) (s : PsarPairState) (e : TickEvent)
    (s' : PsarPairState) (out : List SignalEvent)
    (hstep : 0 ≤ cfg.step) (haf : 0 ≤ cfg.af) (hmax : cfg.af ≤ cfg.af_max)
    (h : psarStep cfg s e = some (s', out))
    (hx : -cfg.af_max ≤ s.af ∧ s.af ≤ cfg.af_max) :
    -cfg.af_max ≤ s'.af ∧ s'.af ≤ cfg.af_max := by
  rcases psarStep_inv cfg s e s' out h with rfl | ⟨_, rfl⟩ | ⟨_, s1, s2, sar, hseed, htr, rfl⟩
  · exact hx
  · exact hx
  · have h1 : -cfg.af_max ≤ s1.af ∧ s1.af ≤ cfg.af_max := by
      split_ifs at hseed with ht
      · obtain ⟨_, haf1, _⟩ := seedState_spec cfg s e s1 hseed
        rcases haf1 with h' | h' <;> rw [h'] <;> constructor <;> linarith
      · injection hseed with h'
        subst h'
        exact hx
    obtain ⟨_, haf2, _⟩ := trendStep_spec cfg s1 e s2 sar htr
    have h2 : -cfg.af_max ≤ s2.af ∧ s2.af ≤ cfg.af_max := by
      rcases haf2 with h' | h' | h' | h' | h' <;> rw [h']
      · exact h1
      · exact ⟨le_min (by linarith [h1.1]) (by linarith), min_le_right _ _⟩
      · exact ⟨le_max_right _ _, max_le (by linarith [h1.2]) (by linarith)⟩
      · exact ⟨by linarith, hmax⟩
      · exact ⟨by linarith, by linarith⟩
    obtain ⟨haf3, _⟩ := normalizeDir_fields s2
    obtain ⟨_, haf4, _⟩ := signalStep_rest cfg (normalizeDir s2) sar e
    simpa [haf4, haf3] using h2

/-- One engine step preserves reachability. -/
theorem psarStep_reach (cfg : PsarConfig) (s : PsarPairState) (e : TickEvent)
    (s' : PsarPairState) (out : List SignalEvent)
    (h : psarStep cfg s e = some (s', out)) (hr : PsarReach s) : PsarReach s' := by
  rcases psarStep_inv cfg s e s' out h with rfl | ⟨ht0, rfl⟩ | ⟨ht0, s1, s2, sar, hseed, htr, rfl⟩
  · exact hr
  · exact Or.inr (Or.inl ⟨by rw [ht0], by simp⟩)
  · obtain ⟨h2dir, _, h2highs, h2lows, h2ticks, _, _, _⟩ :=
      trendStep_spec cfg s1 e s2 sar htr
    obtain ⟨_, h3ticks, h3highs, h3lows, _, _, _⟩ := normalizeDir_fields s2
    obtain ⟨h4dir, _, h4ticks, h4highs, h4lows, _⟩ :=
      signalStep_rest cfg (normalizeDir s2) sar e
    have h1six : s1.ticks = s.ticks ∧ (s1.direction = 1 ∨ s1.direction = -1) := by
      split_ifs at hseed with ht
      · obtain ⟨hdir1, _, _, _, _, hticks1, _, _⟩ := seedState_spec cfg s e s1 hseed
        exact ⟨hticks1, hdir1⟩
      · injection hseed with h'
        subst h'
        refine ⟨rfl, ?_⟩
        rcases hr with hr | ⟨hr1, _⟩ | ⟨_, hrdir, _⟩
        · exact absurd hr ht0
        · exact absurd hr1 ht
        · exact hrdir
    have hdir3 : (normalizeDir s2).direction = 1 ∨ (normalizeDir s2).direction = -1 := by
      apply normalizeDir_direction
      rcases h2dir with h' | h'
      · rw [h']
        rcases h1six.2 with h'' | h''
        · exact Or.inl h''
        · exact Or.inr (Or.inl h'')
      · exact Or.inr (Or.inr h')
    refine Or.inr (Or.inr ⟨?_, ?_, by simp, ?_, ?_⟩)
    · have : s.ticks ≠ 0 := ht0
      simp only [h4ticks, h3ticks, h2ticks, h1six.1]
      omega
    · rw [h4dir]
      exact hdir3
    · simp only [h4highs, h3highs]
      exact h2highs
    · simp only [h4lows, h3lows]
      exact h2lows

/-- From a reachable state, one engine step never raises: the guards
return, the first tick only records, and in steady state the seeding and
trend phases succeed. -/
theorem psarStep_isSome (cfg : PsarConfig) (s : PsarPairState) (e : TickEvent)
    (hr : PsarReach s) : (psarStep cfg s e).isSome := by
  unfold psarStep
  split_ifs with hguard hnan ht0 ht1
  · rfl
  · rfl
  · -- second tick (`ticks = 1`): the seeding path
    rcases hr with hr | ⟨_, hr2⟩ | ⟨hr1, _⟩
    · exact absurd hr ht0
    · obtain ⟨s1, hs1⟩ := Option.isSome_iff_exists.mp (seedState_isSome cfg s e hr2)
      rw [hs1]
      dsimp only
      obtain ⟨hdir1, _, hps1, _⟩ := seedState_spec cfg s e s1 hs1
      obtain ⟨⟨s2, sar⟩, htr⟩ :=
        Option.isSome_iff_exists.mp (trendStep_isSome cfg s1 e hdir1 hps1)
      rw [htr]
      rfl
    · omega
  · -- later ticks (`ticks ≥ 2`): the steady-state path
    rcases hr with hr | ⟨hr1, _⟩ | ⟨_, hrdir, hrps, _⟩
    · exact absurd hr ht0
    · exact absurd hr1 ht1
    · dsimp only
      obtain ⟨⟨s2, sar⟩, htr⟩ :=
        Option.isSome_iff_exists.mp (trendStep_isSome cfg s e hrdir hrps)
      rw [htr]
      rfl
  · rfl

/-- Any property of the per-pair state that holds initially and is
preserved by `psarStep` holds after processing any event sequence. -/
theorem psarRun_inv (cfg : PsarConfig) (P : PsarPairState → Prop)
    (h0 : P (initPsarPairState cfg))
    (hstep : ∀ s e s' out, psarStep cfg s e = some (s', out) → P s → P s') :
    ∀ events s sigs, psarRun cfg events = some (s, sigs) → P s := by
  have haux : ∀ (l : List TickEvent) (acc : Option (PsarPairState × List SignalEvent)),
      (∀ s0 g0, acc = some (s0, g0) → P s0) →
      ∀ s sigs, l.foldl (psarFoldStep cfg) acc = some (s, sigs) → P s := by
    intro l
    induction l with
    | nil =>
      intro acc hacc s sigs h
      exact hacc s sigs h
    | cons e t ih =>
      intro acc hacc s sigs h
      rw [List.foldl_cons] at h
      refine ih (psarFoldStep cfg acc e) ?_ s sigs h
      intro s0 g0 hf
      unfold psarFoldStep at hf
      rcases acc with _ | ⟨sa, ga⟩
      · exact Option.noConfusion hf
      · dsimp only at hf
        rcases hsa : psarStep cfg sa e with _ | ⟨sb, gb⟩
        · rw [hsa] at hf
          exact Option.noConfusion hf
        · rw [hsa] at hf
          injection hf with hf'
          have hs0 : sb = s0 := congrArg Prod.fst hf'
          subst hs0
          exact hstep sa e sb gb hsa (hacc sa ga rfl)
  intro events s sigs h
  refine haux events _ ?_ s sigs h
  intro s0 g0 h'
  injection h' with h''
  have : initPsarPairState cfg = s0 := congrArg Prod.fst h''
  rw [← this]
  exact h0

/-! ## Basic guard theorems -/

/-- C5: for the Trend-Reversal Indicator Engine, if any of the four
high/low price fields of an accepted tick is NaN, processing the tick
returns the per-instrument state completely unchanged and emits no
signal. -/
theorem psar_c5_nan_guard (cfg : PsarConfig) (s : PsarPairState) (e : TickEvent)
    (htype : e.type = "TICK") (hinst : e.instrument = primaryPair cfg)
    (hnan : nanBad e = true) :
    psarStep cfg s e = some (s, []) := by
  unfold psarStep
  rw [if_pos ⟨htype, hinst⟩, if_pos hnan]

/-- Witness for C5: a concrete NaN-marked tick on the primary instrument
leaves a concrete state untouched. -/
theorem psar_c5_nan_guard_witness :
    psarStep ⟨["A"], 1/50, 1/5, 1/5⟩ (initPsarPairState ⟨["A"], 1/50, 1/5, 1/5⟩)
      ⟨"TICK", "A", 0, 1, 1, ⟨true, 0⟩, ⟨false, 1⟩, ⟨false, 1⟩, ⟨false, 1⟩⟩ =
      some (initPsarPairState ⟨["A"], 1/50, 1/5, 1/5⟩, []) :=
  psar_c5_nan_guard _ _ _ rfl rfl rfl

/-- C8: for the Trend-Reversal Indicator Engine, an event whose
instrument differs from the configured primary instrument leaves the
whole per-instrument state map unchanged and emits no signal. -/
theorem psar_c8_other_instrument (cfg : PsarConfig)
    (d : String → PsarPairState) (e : TickEvent)
    (h : e.instrument ≠ primaryPair cfg) :
    psarDictStep cfg d e = some (d, []) := by
  unfold psarDictStep
  rw [if_neg]
  intro hc
  exact h hc.2

/-- Witness for C8: a concrete tick on instrument `"B"` is ignored by an
engine whose primary instrument is `"A"`. -/
theorem psar_c8_other_instrument_witness :
    psarDictStep ⟨["A"], 1/50, 1/5, 1/5⟩
      (fun _ => initPsarPairState ⟨["A"], 1/50, 1/5, 1/5⟩)
      (flatTick "B" 0 10) =
      some ((fun _ => initPsarPairState ⟨["A"], 1/50, 1/5, 1/5⟩), []) :=
  psar_c8_other_instrument _ _ _ (by decide)

/-! ## Crossover Detector theorems -/

/-- Updating the rolling averages does not change the tick count. -/
theorem maUpdateSmas_ticks (cfg : MAConfig) (s : MAPairState) (price : ℚ) :
    (maUpdateSmas cfg s price).ticks = s.ticks := by
  unfold maUpdateSmas
  split_ifs <;> rfl

/-- The signal checks do not change the rolling averages. -/
theorem maSignalCheck_smas (cfg : MAConfig) (s1 : MAPairState) (e : TickEvent) :
    (maSignalCheck cfg s1 e).1.short_sma = s1.short_sma ∧
    (maSignalCheck cfg s1 e).1.long_sma = s1.long_sma := by
  unfold maSignalCheck
  dsimp only
  split_ifs <;> exact ⟨rfl, rfl⟩

/-- During warm-up the signal checks are skipped entirely. -/
theorem maSignalCheck_warmup (cfg : MAConfig) (s1 : MAPairState) (e : TickEvent)
    (h : (s1.ticks : ℤ) ≤ cfg.short_window) :
    maSignalCheck cfg s1 e = (s1, []) := by
  unfold maSignalCheck
  rw [if_neg (by omega)]

/-- C4: the Rolling Average Crossover Detector emits no signal on a tick
processed while the instrument's tick count is at most `short_window`;
only ticks with `tick_count > short_window` can emit. -/
theorem ma_c4_warmup_gating (cfg : MAConfig) (s : MAPairState) (e : TickEvent)
    (h : (s.ticks : ℤ) ≤ cfg.short_window) :
    (maStep cfg s e).2 = [] := by
  unfold maStep
  split_ifs with ht
  · have h1 : ((maUpdateSmas cfg s e.bid).ticks : ℤ) ≤ cfg.short_window := by
      rw [maUpdateSmas_ticks]; exact h
    dsimp only
    rw [maSignalCheck_warmup cfg _ e h1]
  · rfl

/-- Witness for C4: with `short_window = 2` and one tick already seen,
the next tick emits nothing. -/
theorem ma_c4_warmup_gating_witness :
    (maStep ⟨["A"], 2, 2000⟩ ⟨1, false, 1, 1⟩ (flatTick "A" 1 5)).2 = [] :=
  ma_c4_warmup_gating _ _ _ (by decide)

/-- C7: the Crossover Detector initialises both rolling averages to the
tick's bid price on an instrument's first tick, and on every later tick
updates each by `new = (old * (window - 1) + price) / window` with the
respective window. -/
theorem ma_c7_rolling_update (cfg : MAConfig) (s : MAPairState) (e : TickEvent)
    (htype : e.type = "TICK") :
    (s.ticks = 0 →
       (maStep cfg s e).1.short_sma = e.bid ∧
       (maStep cfg s e).1.long_sma = e.bid) ∧
    (s.ticks ≠ 0 →
       (maStep cfg s e).1.short_sma =
         (s.short_sma * ((cfg.short_window : ℚ) - 1) + e.bid) / (cfg.short_window : ℚ) ∧
       (maStep cfg s e).1.long_sma =
         (s.long_sma * ((cfg.long_window : ℚ) - 1) + e.bid) / (cfg.long_window : ℚ)) := by
  have hs := maSignalCheck_smas cfg (maUpdateSmas cfg s e.bid) e
  have hstep : (maStep cfg s e).1.short_sma = (maUpdateSmas cfg s e.bid).short_sma ∧
      (maStep cfg s e).1.long_sma = (maUpdateSmas cfg s e.bid).long_sma := by
    unfold maStep
    rw [if_pos htype]
    exact hs
  constructor
  · intro h0
    rw [hstep.1, hstep.2]
    unfold maUpdateSmas
    rw [if_pos h0]
    exact ⟨rfl, rfl⟩
  · intro h0
    rw [hstep.1, hstep.2]
    unfold maUpdateSmas calc_rolling_sma
    rw [if_neg h0]
    exact ⟨rfl, rfl⟩

/-- Witness for C7: on a first tick both averages become the bid price
(the non-first-tick clause is vacuous there). -/
theorem ma_c7_rolling_update_witness :
    (maStep ⟨["A"], 2, 2000⟩ initMAPairState (flatTick "A" 0 3)).1.short_sma = 3 ∧
    (maStep ⟨["A"], 2, 2000⟩ initMAPairState (flatTick "A" 0 3)).1.long_sma = 3 :=
  (ma_c7_rolling_update ⟨["A"], 2, 2000⟩ initMAPairState
    (flatTick "A" 0 3) rfl).1 rfl

/-- C9: with `short_window = 2` and bid prices `[1, 1, 1, 2, 2, 2]` on one
instrument, the Crossover Detector emits nothing on the first three
ticks, exactly one buy signal on the fourth tick (the price step to 2
with tick count 3 > 2), and nothing further on the remaining ticks. -/
theorem ma_c9_literal_scenario :
    (maRun c9cfg (c9events.take 1)).2 = [] ∧
    (maRun c9cfg (c9events.take 2)).2 = [] ∧
    (maRun c9cfg (c9events.take 3)).2 = [] ∧
    (maRun c9cfg (c9events.take 4)).2 = [c9buy] ∧
    (maRun c9cfg (c9events.take 5)).2 = [c9buy] ∧
    (maRun c9cfg c9events).2 = [c9buy] := by
  refine ⟨rfl, rfl, rfl, ?_, ?_, ?_⟩ <;> with_unfolding_all rfl

/-! ## Trend-Reversal Engine: downtrend reversal (C1) -/

/-- C1 (code bug): on the three-tick run `[c1t1, c1t2, c1t3]` the engine
is in a downtrend after two ticks, the third tick makes the maximum of
the entire high history (11) exceed the indicator computed on that tick
(10), the reversal branch fires (`af` is reset from `-1/5` to the
positive initial `+1/5`) — yet after the tick the trend direction is
still `-1` (downtrend), not uptrend as the specification demands: the
downtrend branch of the source never assigns `direction`. -/
theorem psar_c1_downtrend_reversal_eval :
    psarRun c1cfg [c1t1, c1t2] = some (c1s2, []) ∧
    c1s2.direction = -1 ∧
    c1s2.af = -c1cfg.af ∧
    pyMax (c1s2.highs ++ [c1t3.bid_high.val]) = some 11 ∧
    (11 : ℚ) > c1s2.prior_sar.getD 0 + c1s2.af * (c1s2.prior_sar.getD 0 - c1s2.ep) ∧
    psarRun c1cfg [c1t1, c1t2, c1t3] = some (c1s3, []) ∧
    c1s3.direction = -1 ∧
    c1s3.af = c1cfg.af ∧
    c1cfg.af = 1/5 := by
  refine ⟨?_, rfl, ?_, ?_, ?_, ?_, rfl, ?_, ?_⟩ <;> with_unfolding_all rfl

/-! ## Acceleration-factor bound (C3) -/

/-- Counterexample to C3 as stated: the configuration `c3cfg` satisfies
`af_max ≥ af` (`0 ≥ -1`), yet after processing one well-formed tick the
acceleration factor is still the initial `-1`, whose absolute value
exceeds `af_max = 0`. -/
theorem psar_c3_counterexample :
    c3cfg.af ≤ c3cfg.af_max ∧
    psarRun c3cfg [c3tick] = some (c3s1, []) ∧
    c3cfg.af_max < |c3s1.af| := by
  refine ⟨by norm_num [c3cfg], by with_unfolding_all rfl, by norm_num [c3cfg, c3s1]⟩

/-! ## Run-level invariants (C2, C3) -/

/-- C2: for every sequence of tick events, after processing any tick the
per-instrument flags `long` and `short` of the Trend-Reversal Engine are
never simultaneously true: at least one of them is false. -/
theorem psar_c2_mutual_exclusion (cfg : PsarConfig) (events : List TickEvent)
    (s : PsarPairState) (sigs : List SignalEvent)
    (h : psarRun cfg events = some (s, sigs)) :
    s.long = false ∨ s.short = false :=
  psarRun_inv cfg (fun t => t.long = false ∨ t.short = false)
    (Or.inl rfl) (fun a e a' out h' hx => psarStep_flags cfg a e a' out h' hx)
    events s sigs h

/-- Witness for C2 at the empty event sequence. -/
theorem psar_c2_mutual_exclusion_witness :
    (initPsarPairState ⟨["EURUSD"], 1/50, 1/5, 1/5⟩).long = false ∨
    (initPsarPairState ⟨["EURUSD"], 1/50, 1/5, 1/5⟩).short = false :=
  psar_c2_mutual_exclusion ⟨["EURUSD"], 1/50, 1/5, 1/5⟩ [] _ [] rfl

/-- C3 (amended): for every configuration with `0 ≤ step`,
`0 ≤ initial af` and `af ≤ af_max`, after processing every tick
`|acceleration factor| ≤ af_max`.  (The unamended claim, with only
`af ≤ af_max` assumed, is refuted by `psar_c3_counterexample`.) -/
theorem psar_c3_af_bound (cfg : PsarConfig) (events : List TickEvent)
    (s : PsarPairState) (sigs : List SignalEvent)
    (hstep : 0 ≤ cfg.step) (haf : 0 ≤ cfg.af) (hmax : cfg.af ≤ cfg.af_max)
    (h : psarRun cfg events = some (s, sigs)) :
    |s.af| ≤ cfg.af_max := by
  have hP := psarRun_inv cfg (fun t => -cfg.af_max ≤ t.af ∧ t.af ≤ cfg.af_max)
    ⟨show -cfg.af_max ≤ cfg.af by linarith, hmax⟩
    (fun a e a' out h' hx => psarStep_af cfg a e a' out hstep haf hmax h' hx)
    events s sigs h
  exact abs_le.mpr hP

/-- Witness for C3 (amended) at the empty event sequence. -/
theorem psar_c3_af_bound_witness :
    |(initPsarPairState ⟨["EURUSD"], 1/50, 1/5, 1/5⟩).af| ≤
      (⟨["EURUSD"], 1/50, 1/5, 1/5⟩ : PsarConfig).af_max :=
  psar_c3_af_bound ⟨["EURUSD"], 1/50, 1/5, 1/5⟩ [] _ []
    (by norm_num) (by norm_num) (by norm_num) rfl

/-! ## Steady-state safety (C10) -/

/-- C10: from any reachable state with `ticks ≥ 1`, an accepted
well-formed tick runs the steady-state computation on a state whose
direction is nonzero (so exactly one trend branch executes), whose
histories are nonempty (so `min`/`max` never see an empty sequence) and
whose prior indicator is defined, and the trend computation succeeds (so
an indicator value is bound before signal evaluation). -/
theorem psar_c10_steady_state_safety (cfg : PsarConfig)
    (events : List TickEvent) (s : PsarPairState) (sigs : List SignalEvent)
    (e : TickEvent) (hrun : psarRun cfg events = some (s, sigs))
    (htype : e.type = "TICK") (hinst : e.instrument = primaryPair cfg)
    (hnan : nanBad e = false) (hticks : 1 ≤ s.ticks) :
    ∃ s1, (if s.ticks = 1 then seedState cfg s e else some s) = some s1 ∧
      s1.direction ≠ 0 ∧ s1.highs ≠ [] ∧ s1.lows ≠ [] ∧
      s1.prior_sar.isSome ∧ (trendStep cfg s1 e).isSome := by
  have hr := psarRun_inv cfg PsarReach (Or.inl rfl)
    (fun a e' a' out h' hx => psarStep_reach cfg a e' a' out h' hx)
    events s sigs hrun
  by_cases ht1 : s.ticks = 1
  · rcases hr with hr | ⟨_, hle⟩ | ⟨hr2, _⟩
    · omega
    · obtain ⟨s1, hs1⟩ := Option.isSome_iff_exists.mp (seedState_isSome cfg s e hle)
      obtain ⟨hdir1, _, hps1, hh1, hl1, _⟩ := seedState_spec cfg s e s1 hs1
      refine ⟨s1, by rw [if_pos ht1]; exact hs1, ?_, hh1, hl1, hps1,
        trendStep_isSome cfg s1 e hdir1 hps1⟩
      rcases hdir1 with h' | h' <;> rw [h'] <;> norm_num
    · omega
  · rcases hr with hr | ⟨hr1, _⟩ | ⟨_, hdir, hps, hh, hl⟩
    · omega
    · exact absurd hr1 ht1
    · refine ⟨s, by rw [if_neg ht1], ?_, hh, hl, hps,
        trendStep_isSome cfg s e hdir hps⟩
      rcases hdir with h' | h' <;> rw [h'] <;> norm_num

/-- Witness for C10: after one accepted tick the seeding of the second
tick succeeds and hands the steady-state computation a safe state. -/
theorem psar_c10_steady_state_safety_witness :
    ∃ s1, (if c10s1.ticks = 1 then seedState c10cfg c10s1 c10e1 else some c10s1) =
        some s1 ∧
      s1.direction ≠ 0 ∧ s1.highs ≠ [] ∧ s1.lows ≠ [] ∧
      s1.prior_sar.isSome ∧ (trendStep c10cfg s1 c10e1).isSome :=
  psar_c10_steady_state_safety c10cfg [c10e0] c10s1 [] c10e1
    (by with_unfolding_all rfl) rfl rfl rfl (by norm_num [c10s1])

/-! ## Second-tick seeding (C6) -/

/-- C6: on the second accepted well-formed tick, the seed indicator is
the arithmetic mean of the four high/low fields; if
`seed - bid_low > bid_high - seed` the trend becomes uptrend, the
histories seed from the previous tick's ask-high/ask-low, `af` becomes
`+af` and the extreme becomes the (maximum of the) seeded high history;
otherwise the trend becomes downtrend, the histories seed from the
previous tick's bid-high/bid-low, `af` becomes `-af` and the extreme
becomes the (minimum of the) seeded low history. -/
theorem psar_c6_seed_classification (cfg : PsarConfig) (e0 e1 : TickEvent)
    (s1 : PsarPairState) (sigs : List SignalEvent)
    (h0type : e0.type = "TICK") (h0inst : e0.instrument = primaryPair cfg)
    (h0nan : nanBad e0 = false)
    (h1type : e1.type = "TICK") (h1inst : e1.instrument = primaryPair cfg)
    (h1nan : nanBad e1 = false)
    (hrun : psarRun cfg [e0] = some (s1, sigs)) :
    ∃ s2, seedState cfg s1 e1 = some s2 ∧
      s2.prior_sar =
        some ((e1.ask_high.val + e1.ask_low.val + e1.bid_high.val + e1.bid_low.val) / 4) ∧
      ((e1.ask_high.val + e1.ask_low.val + e1.bid_high.val + e1.bid_low.val) / 4
          - e1.bid_low.val >
        e1.bid_high.val -
          (e1.ask_high.val + e1.ask_low.val + e1.bid_high.val + e1.bid_low.val) / 4 →
        s2.direction = 1 ∧ s2.highs = [e0.ask_high.val] ∧
        s2.lows = [e0.ask_low.val] ∧ s2.af = cfg.af ∧ s2.ep = e0.ask_high.val) ∧
      (¬((e1.ask_high.val + e1.ask_low.val + e1.bid_high.val + e1.bid_low.val) / 4
          - e1.bid_low.val >
        e1.bid_high.val -
          (e1.ask_high.val + e1.ask_low.val + e1.bid_high.val + e1.bid_low.val) / 4) →
        s2.direction = -1 ∧ s2.highs = [e0.bid_high.val] ∧
        s2.lows = [e0.bid_low.val] ∧ s2.af = -cfg.af ∧ s2.ep = e0.bid_low.val) := by
  have hs1 : s1 = { initPsarPairState cfg with last_event := some e0, ticks := 1 } := by
    unfold psarRun at hrun
    rw [List.foldl_cons, List.foldl_nil] at hrun
    unfold psarFoldStep at hrun
    dsimp only at hrun
    unfold psarStep at hrun
    rw [if_pos ⟨h0type, h0inst⟩] at hrun
    rw [if_neg (by simp [h0nan])] at hrun
    rw [if_pos (by rfl : (initPsarPairState cfg).ticks = 0)] at hrun
    injection hrun with h'
    exact (congrArg Prod.fst h').symm
  subst hs1
  unfold seedState
  dsimp only
  split_ifs with hcls
  · have hmx : pyMax ((initPsarPairState cfg).highs ++ [e0.ask_high.val]) =
        some e0.ask_high.val := by
      simp [initPsarPairState, pyMax]
    rw [hmx]
    refine ⟨_, rfl, rfl, fun _ => ⟨rfl, rfl, rfl, rfl, rfl⟩,
      fun hneg => absurd hcls hneg⟩
  · have hmn : pyMin ((initPsarPairState cfg).lows ++ [e0.bid_low.val]) =
        some e0.bid_low.val := by
      simp [initPsarPairState, pyMin]
    rw [hmn]
    exact ⟨_, rfl, rfl, fun hpos => absurd hpos hcls,
      fun _ => ⟨rfl, rfl, rfl, rfl, rfl⟩⟩

/-- Witness for C6 on a concrete flat two-tick run (classified as
downtrend, since the seed is equidistant from bid-low and bid-high). -/
theorem psar_c6_seed_classification_witness :
    ∃ s2, seedState c6cfg c6s1 c6e1 = some s2 ∧
      s2.prior_sar =
        some ((c6e1.ask_high.val + c6e1.ask_low.val + c6e1.bid_high.val + c6e1.bid_low.val) / 4) ∧
      ((c6e1.ask_high.val + c6e1.ask_low.val + c6e1.bid_high.val + c6e1.bid_low.val) / 4
          - c6e1.bid_low.val >
        c6e1.bid_high.val -
          (c6e1.ask_high.val + c6e1.ask_low.val + c6e1.bid_high.val + c6e1.bid_low.val) / 4 →
        s2.direction = 1 ∧ s2.highs = [c6e0.ask_high.val] ∧
        s2.lows = [c6e0.ask_low.val] ∧ s2.af = c6cfg.af ∧ s2.ep = c6e0.ask_high.val) ∧
      (¬((c6e1.ask_high.val + c6e1.ask_low.val + c6e1.bid_high.val + c6e1.bid_low.val) / 4
          - c6e1.bid_low.val >
        c6e1.bid_high.val -
          (c6e1.ask_high.val + c6e1.ask_low.val + c6e1.bid_high.val + c6e1.bid_low.val) / 4) →
        s2.direction = -1 ∧ s2.highs = [c6e0.bid_high.val] ∧
        s2.lows = [c6e0.bid_low.val] ∧ s2.af = -c6cfg.af ∧ s2.ep = c6e0.bid_low.val) :=
  psar_c6_seed_classification c6cfg c6e0 c6e1 c6s1 []
    rfl rfl rfl rfl rfl rfl (by with_unfolding_all rfl)

end QSForex
